import Mathlib

/-!
Shallow embedding of the storage-adapter layer of `src/db_adapter.py`:
the MongoDB adapter (documents as ordered key/value dictionaries), the SQL
adapter (typed rows), the connection-URL normalization, the adapter factory,
and the lifecycle (connect / disconnect / health_check) control flow.

MongoDB documents are schemaless, so they are modelled as ordered association
lists `List (String × Value)` with first-key-wins lookup (Python `dict`
semantics for the keys the code reads; the adapter never stores a duplicate
key, and lookup on the first occurrence matches `dict` behaviour).
Stateful collections are modelled by explicit state passing: each CRUD
operation maps a store state to a pair of an outcome (`Except PyErr …`, where
`.error` is a Python exception propagating out of the adapter method) and the
post-call state.
-/

set_option autoImplicit false

namespace DbAdapter

/-- A Python/BSON value that can sit in a document field: strings, ints,
`None`, and MongoDB ObjectIds (modelled as the `Nat` drawn from the adapter's
id generator). -/
inductive Value where
  | str (s : String)
  | int (n : Int)
  | null
  | oid (n : Nat)
  deriving DecidableEq, Repr

/-- Python `str(v)`: the MongoDB adapter applies it to the native `_id`. -/
def Value.pyStr : Value → String
  | .str s => s
  | .int n => toString n
  | .null => "None"
  | .oid n => toString n

/-- The two kinds of exception the adapter layer can raise out of a CRUD
call: `ValueError("User with this email already exists")` (`duplicateKey`),
or any other driver/runtime exception (`exc`). -/
inductive PyErr where
  | duplicateKey
  | exc
  deriving DecidableEq, Repr

/-- Python `d[k]` / `k in d` lookup on a dictionary, modelled on an ordered
association list (first occurrence wins). -/
def dget (k : String) : List (String × Value) → Option Value
  | [] => none
  | (k', v) :: rest => if k' = k then some v else dget k rest

/-- Python `d[k] = v`: overwrite the existing entry in place, or append a new
entry at the end (dict insertion order). -/
def dset (k : String) (v : Value) : List (String × Value) → List (String × Value)
  | [] => [(k, v)]
  | (k', v') :: rest => if k' = k then (k, v) :: rest else (k', v') :: dset k v rest

/-- The create payload the HTTP layer passes to `create_user`:
`UserCreate.model_dump()` always contains the keys `name`, `email`, `age`
(with `age` possibly `None`). -/
structure UserCreate where
  name : String
  email : String
  age : Option Int
  deriving DecidableEq, Repr

/-- `age` as the stored `Value` (an int, or `None`). -/
def ageValue : Option Int → Value
  | some n => .int n
  | none => .null

/-- The dictionary `user.model_dump()` handed to `create_user`. -/
def UserCreate.toDict (p : UserCreate) : List (String × Value) :=
  [("name", .str p.name), ("email", .str p.email), ("age", ageValue p.age)]

/-- The update payload passed to `update_user`:
`UserUpdate.model_dump(exclude_unset=True)`, i.e. each of `name`/`email`/`age`
is either absent (`none`) or present with a value (for `age`, possibly
`None`). -/
structure UserUpdate where
  name : Option String
  email : Option String
  age : Option (Option Int)
  deriving DecidableEq, Repr

/-- The dictionary `user_update.model_dump(exclude_unset=True)`: only the
fields that were set appear, in declaration order. -/
def UserUpdate.toDict (u : UserUpdate) : List (String × Value) :=
  (match u.name with | some n => [("name", Value.str n)] | none => []) ++
  (match u.email with | some e => [("email", Value.str e)] | none => []) ++
  (match u.age with | some a => [("age", ageValue a)] | none => [])

/-! ## MongoDB adapter (`MongoDBAdapter`) -/

/-- The `users` collection in natural (insertion) order, plus the ObjectId
generator for `insert_one`. -/
structure MongoState where
  docs : List (List (String × Value))
  nextId : Nat
  deriving DecidableEq, Repr

/-- `collection.find_one({"email": email})`: first document (in natural
order) whose `email` field equals the queried string. -/
def mongoFindByEmail (docs : List (List (String × Value))) (email : String) :
    Option (List (String × Value)) :=
  docs.find? (fun d => decide (dget "email" d = some (Value.str email)))

/-- `collection.find_one({"_id": oid})`. -/
def mongoFindById (docs : List (List (String × Value))) (oid : Nat) :
    Option (List (String × Value)) :=
  docs.find? (fun d => decide (dget "_id" d = some (Value.oid oid)))

/-- `MongoDBAdapter._convert_mongodb_user_to_dict` on a non-`None` document:
builds a fresh dict with exactly the four assignments the code performs, in
order, defaulting each missing source field. -/
def convertMongoUserToDict (user : List (String × Value)) : List (String × Value) :=
  [ ("id", .str (match dget "_id" user with | some v => v.pyStr | none => "")),
    ("name", (dget "name" user).getD (.str "")),
    ("email", (dget "email" user).getD (.str "")),
    ("age", (dget "age" user).getD .null) ]

/-- `_convert_mongodb_user_to_dict` including its `if user is None: return
None` guard. -/
def convertMongoUser : Option (List (String × Value)) → Option (List (String × Value))
  | none => none
  | some user => some (convertMongoUserToDict user)

/-- `MongoDBAdapter.create_user`: existence check by email, raise
`ValueError` if found; else `insert_one` (which attaches a freshly generated
`_id`), re-fetch the stored document by that id, and return its conversion. -/
def mongoCreateUser (st : MongoState) (p : UserCreate) :
    Except PyErr (Option (List (String × Value))) × MongoState :=
  match mongoFindByEmail st.docs p.email with
  | some _ => (.error .duplicateKey, st)
  | none =>
    let doc := ("_id", Value.oid st.nextId) :: p.toDict
    let st' : MongoState := ⟨st.docs ++ [doc], st.nextId + 1⟩
    (.ok (convertMongoUser (mongoFindById st'.docs st.nextId)), st')

/-- `MongoDBAdapter.get_all_users`: converts every document in cursor
order. -/
def mongoGetAllUsers (st : MongoState) : List (List (String × Value)) :=
  st.docs.map convertMongoUserToDict

/-- `MongoDBAdapter.get_user_by_email`. -/
def mongoGetUserByEmail (st : MongoState) (email : String) :
    Option (List (String × Value)) :=
  match mongoFindByEmail st.docs email with
  | none => none
  | some d => some (convertMongoUserToDict d)

/-- `"$set"` application: each supplied key overwrites (or adds) that field
of the document, other fields untouched. -/
def applySet (upd : List (String × Value)) (d : List (String × Value)) :
    List (String × Value) :=
  upd.foldl (fun acc kv => dset kv.1 kv.2 acc) d

/-- The effect of a non-empty `{"$set": upd}` on the collection: the `$set`
is applied to the first document matching the email filter only. -/
def mongoUpdateOne (email : String) (upd : List (String × Value)) :
    List (List (String × Value)) → List (List (String × Value))
  | [] => []
  | d :: rest =>
    if dget "email" d = some (Value.str email) then applySet upd d :: rest
    else d :: mongoUpdateOne email upd rest

/-- `collection.update_one({"email": email}, {"$set": upd})`: MongoDB rejects
an empty `$set` document, so with an empty `upd` the call raises an
`OperationFailure` and writes nothing; otherwise it applies the `$set` to the
first matching document. -/
def mongoUpdateOneCall (email : String) (upd : List (String × Value))
    (docs : List (List (String × Value))) :
    Except PyErr (List (List (String × Value))) :=
  if upd = [] then .error .exc
  else .ok (mongoUpdateOne email upd docs)

/-- Duplicate check of `update_user`: `"email" in update_data`, the new email
differs from the lookup key, and a document with the new email exists. -/
def mongoUpdateDupCheck (docs : List (List (String × Value))) (email : String)
    (u : UserUpdate) : Bool :=
  match u.email with
  | some newEmail => decide (newEmail ≠ email) && (mongoFindByEmail docs newEmail).isSome
  | none => false

/-- `MongoDBAdapter.update_user`: lookup by email (absent → `None`), the
duplicate re-check when the payload changes the email, `update_one` with
`$set` (which raises on an empty payload, propagating out of the method with
the store unchanged), then a re-fetch by whichever email is now current. -/
def mongoUpdateUser (st : MongoState) (email : String) (u : UserUpdate) :
    Except PyErr (Option (List (String × Value))) × MongoState :=
  match mongoFindByEmail st.docs email with
  | none => (.ok none, st)
  | some _ =>
    if mongoUpdateDupCheck st.docs email u then (.error .duplicateKey, st)
    else
      match mongoUpdateOneCall email u.toDict st.docs with
      | .error ex => (.error ex, st)
      | .ok docs' =>
        let updatedEmail := u.email.getD email
        (.ok (convertMongoUser (mongoFindByEmail docs' updatedEmail)), ⟨docs', st.nextId⟩)

/-- `collection.delete_one({"email": email})`: removes the first matching
document. -/
def mongoDeleteOne (email : String) :
    List (List (String × Value)) → List (List (String × Value))
  | [] => []
  | d :: rest =>
    if dget "email" d = some (Value.str email) then rest
    else d :: mongoDeleteOne email rest

/-- `MongoDBAdapter.delete_user`: `deleted_count == 1` exactly when a
document matched. -/
def mongoDeleteUser (st : MongoState) (email : String) :
    Except PyErr Bool × MongoState :=
  match mongoFindByEmail st.docs email with
  | none => (.ok false, st)
  | some _ => (.ok true, ⟨mongoDeleteOne email st.docs, st.nextId⟩)

/-! ## SQL adapter (`SQLAdapter`) -/

/-- A row of the `users` table: `id` auto-increment primary key, `name` and
`email` non-null strings (`email` unique-indexed), `age` nullable integer. -/
structure SqlUser where
  id : Nat
  name : String
  email : String
  age : Option Int
  deriving DecidableEq, Repr

/-- The table contents plus the auto-increment counter. -/
structure SqlState where
  rows : List SqlUser
  nextId : Nat
  deriving DecidableEq, Repr

/-- `select(UserModel).where(UserModel.email == email)` followed by
`scalar_one_or_none()`. The `email` column carries a unique index, so at most
one row can match; on such states this is the first (only) match. -/
def sqlFindByEmail (rows : List SqlUser) (email : String) : Option SqlUser :=
  rows.find? (fun r => decide (r.email = email))

/-- `SQLAdapter._convert_sql_user_to_dict`: the four assignments the code
performs, in order, with the integer id stringified. -/
def convertSqlUserToDict (u : SqlUser) : List (String × Value) :=
  [ ("id", .str (toString u.id)),
    ("name", .str u.name),
    ("email", .str u.email),
    ("age", ageValue u.age) ]

/-- `SQLAdapter.create_user`: existence check by email in the same session,
raise `ValueError` if found; else insert a new row (the database assigns the
auto-increment id, observed via `session.refresh`). `user_data.get("age")`
defaults to `None`; `name` and `email` are read with `[...]` and are always
present in the HTTP layer's payload. -/
def sqlCreateUser (st : SqlState) (p : UserCreate) :
    Except PyErr (Option (List (String × Value))) × SqlState :=
  match sqlFindByEmail st.rows p.email with
  | some _ => (.error .duplicateKey, st)
  | none =>
    let row : SqlUser := ⟨st.nextId, p.name, p.email, p.age⟩
    (.ok (some (convertSqlUserToDict row)), ⟨st.rows ++ [row], st.nextId + 1⟩)

/-- `SQLAdapter.get_all_users`. -/
def sqlGetAllUsers (st : SqlState) : List (List (String × Value)) :=
  st.rows.map convertSqlUserToDict

/-- `SQLAdapter.get_user_by_email`. -/
def sqlGetUserByEmail (st : SqlState) (email : String) :
    Option (List (String × Value)) :=
  match sqlFindByEmail st.rows email with
  | none => none
  | some r => some (convertSqlUserToDict r)

/-- The three `if "field" in update_data:` mutations of `update_user`: a
present field overwrites the ORM object's attribute, an absent one leaves it;
`id` is never touched. -/
def sqlApplyUpdate (u : UserUpdate) (r : SqlUser) : SqlUser :=
  { r with
    name := u.name.getD r.name
    email := u.email.getD r.email
    age := match u.age with | some a => a | none => r.age }

/-- The committed table after `update_user` mutates the fetched row: the
first row matching the lookup email is replaced, all others kept. -/
def sqlUpdateRow (email : String) (u : UserUpdate) : List SqlUser → List SqlUser
  | [] => []
  | r :: rest =>
    if r.email = email then sqlApplyUpdate u r :: rest
    else r :: sqlUpdateRow email u rest

/-- Duplicate check of `SQLAdapter.update_user` (same logic as the MongoDB
one, against the table). -/
def sqlUpdateDupCheck (rows : List SqlUser) (email : String) (u : UserUpdate) : Bool :=
  match u.email with
  | some newEmail => decide (newEmail ≠ email) && (sqlFindByEmail rows newEmail).isSome
  | none => false

/-- `SQLAdapter.update_user`: lookup (absent → `None`), duplicate re-check
when the payload changes the email, per-field mutation of the fetched row,
commit, and conversion of the refreshed row. -/
def sqlUpdateUser (st : SqlState) (email : String) (u : UserUpdate) :
    Except PyErr (Option (List (String × Value))) × SqlState :=
  match sqlFindByEmail st.rows email with
  | none => (.ok none, st)
  | some r =>
    if sqlUpdateDupCheck st.rows email u then (.error .duplicateKey, st)
    else
      (.ok (some (convertSqlUserToDict (sqlApplyUpdate u r))),
       ⟨sqlUpdateRow email u st.rows, st.nextId⟩)

/-- `session.delete(user)` on the fetched row: removes the first row with the
lookup email. -/
def sqlDeleteRow (email : String) : List SqlUser → List SqlUser
  | [] => []
  | r :: rest => if r.email = email then rest else r :: sqlDeleteRow email rest

/-- `SQLAdapter.delete_user`: `False` when no row matched, else delete and
`True`. -/
def sqlDeleteUser (st : SqlState) (email : String) : Except PyErr Bool × SqlState :=
  match sqlFindByEmail st.rows email with
  | none => (.ok false, st)
  | some _ => (.ok true, ⟨sqlDeleteRow email st.rows, st.nextId⟩)

/-! ## Connection-URL normalization (`SQLAdapter._convert_url_to_async`) -/

/-- Python `s.replace(pat, repl)` with a fixed non-empty pattern `p :: ps`:
replace every non-overlapping occurrence, scanning left to right. -/
def replaceFrom (p : Char) (ps repl : List Char) : List Char → List Char
  | [] => []
  | c :: cs =>
    if p == c && ps.isPrefixOf cs then repl ++ replaceFrom p ps repl (cs.drop ps.length)
    else c :: replaceFrom p ps repl cs
termination_by l => l.length
decreasing_by
  · simp only [List.length_drop, List.length_cons]
    omega
  · simp only [List.length_cons]
    omega

/-- Python `s.replace(pat, repl)`; the adapter only ever calls it with a
non-empty literal pattern. -/
def pyStrReplace (pat repl s : List Char) : List Char :=
  match pat with
  | [] => s
  | p :: ps => replaceFrom p ps repl s

/-- `pat` occurs as a contiguous substring. -/
def occursIn (pat : List Char) : List Char → Bool
  | [] => pat.isEmpty
  | c :: cs => pat.isPrefixOf (c :: cs) || occursIn pat cs

/-- `SQLAdapter._convert_url_to_async` on the character list of the URL:
a URL containing `'+'` anywhere is returned unchanged; otherwise each of the
three known synchronous scheme strings, when the URL starts with it, is
rewritten (via Python `str.replace`, i.e. every occurrence) to the async
driver variant; any other URL is returned unchanged. -/
def convertUrlToAsyncL (url : List Char) : List Char :=
  if url.contains '+' then url
  else if "postgresql://".toList.isPrefixOf url then
    pyStrReplace "postgresql://".toList "postgresql+asyncpg://".toList url
  else if "mysql://".toList.isPrefixOf url then
    pyStrReplace "mysql://".toList "mysql+aiomysql://".toList url
  else if "sqlite://".toList.isPrefixOf url then
    pyStrReplace "sqlite://".toList "sqlite+aiosqlite://".toList url
  else url

/-- `SQLAdapter._convert_url_to_async` on `String`. -/
def convertUrlToAsync (url : String) : String :=
  String.mk (convertUrlToAsyncL url.toList)

/-! ## Adapter factory (`get_database_adapter`) -/

/-- The environment variables the factory reads (`os.getenv`: `none` when the
variable is absent). -/
structure Env where
  dbType : Option String
  mongodbUri : Option String
  mongodbDb : Option String
  databaseUrl : Option String
  postgresUrl : Option String
  mysqlUrl : Option String
  sqliteUrl : Option String
  deriving DecidableEq, Repr

/-- The constructed adapter: which class is instantiated and with which
constructor arguments. -/
inductive Adapter where
  | mongo (uri dbName : String)
  | sql (dbUrl : String)
  deriving DecidableEq, Repr

/-- Python `str.lower()`, applied characterwise. (On the ASCII store-kind
strings this function is compared against, characterwise ASCII lowercasing
agrees with Python's Unicode lowercasing.) -/
def pyLower (s : String) : String :=
  String.mk (s.toList.map Char.toLower)

/-- `get_database_adapter`: lowercases `DB_TYPE` (default `"mongodb"`),
selects the adapter class, resolves the connection string from
`DATABASE_URL`, then the kind-specific variable, then the kind's literal
default; unknown kinds yield `None`. -/
def getDatabaseAdapter (env : Env) : Option Adapter :=
  let dbType := pyLower (env.dbType.getD "mongodb")
  if dbType = "mongodb" then
    some (.mongo (env.mongodbUri.getD "mongodb://localhost:27017")
                 (env.mongodbDb.getD "dummydatabase"))
  else if dbType = "postgresql" then
    some (.sql ((env.databaseUrl.orElse fun _ => env.postgresUrl).getD
      "postgresql://localhost/mydb"))
  else if dbType = "postgres" then
    some (.sql ((env.databaseUrl.orElse fun _ => env.postgresUrl).getD
      "postgresql://localhost/mydb"))
  else if dbType = "mysql" then
    some (.sql ((env.databaseUrl.orElse fun _ => env.mysqlUrl).getD
      "mysql://root@localhost/mydb"))
  else if dbType = "sqlite" then
    some (.sql ((env.databaseUrl.orElse fun _ => env.sqliteUrl).getD
      "sqlite:///./mydb.db"))
  else none

/-! ## Lifecycle operations

Each lifecycle method is modelled as a function from the outcomes of the
driver calls it performs (each an `Except PyErr Unit`: `.error` = the call
raised) to `Except PyErr _`, where a final `.error` would be an exception
escaping the method. The `try/except` wrappers of the source are explicit. -/

/-- A `try: <body> except Exception: return False` block around a
boolean-returning body. -/
def tryExceptBool (body : Except PyErr Bool) : Except PyErr Bool :=
  match body with
  | .ok b => .ok b
  | .error _ => .ok false

/-- The inner `try: ... except Exception: pass` around `create_collection`:
whatever the call does, control continues normally. -/
def tryExceptPass (body : Except PyErr Unit) : Except PyErr Unit :=
  match body with
  | .ok _ => .ok ()
  | .error _ => .ok ()

/-- `MongoDBAdapter.connect`: `False` if Motor is not importable; else ping
and create the init collection inside `try/except`, returning `True` on
success and `False` on any exception. -/
def mongoConnect (motorInstalled : Bool) (ping createColl : Except PyErr Unit) :
    Except PyErr Bool :=
  if motorInstalled = false then .ok false
  else tryExceptBool (do
    _ ← ping
    _ ← tryExceptPass createColl
    pure true)

/-- `MongoDBAdapter.disconnect`: `client.close()` releases resources and does
not raise; with no client (never connected) it is a no-op. -/
def mongoDisconnect (client : Option Unit) : Except PyErr Unit :=
  match client with
  | none => .ok ()
  | some _ => .ok ()

/-- `MongoDBAdapter.health_check`: `try: ping; return True except: return
False`. Before a successful `connect`, `self.db` is `None` and the attribute
access raises inside the `try`. -/
def mongoHealthCheck (db : Option Unit) (ping : Except PyErr Unit) :
    Except PyErr Bool :=
  tryExceptBool (match db with
    | none => .error .exc
    | some _ => do
        _ ← ping
        pure true)

/-- `SQLAdapter.connect`: `False` if SQLAlchemy is not importable; else run
`create_all` inside `try/except`. -/
def sqlConnect (sqlalchemyAvailable : Bool) (createAll : Except PyErr Unit) :
    Except PyErr Bool :=
  if sqlalchemyAvailable = false then .ok false
  else tryExceptBool (do
    _ ← createAll
    pure true)

/-- `SQLAdapter.disconnect`: `engine.dispose()` releases the pool and does
not raise; with no engine (SQLAlchemy absent) it is a no-op. -/
def sqlDisconnect (engine : Option Unit) : Except PyErr Unit :=
  match engine with
  | none => .ok ()
  | some _ => .ok ()

/-- `SQLAdapter.health_check`: `try: open session, SELECT 1; return True
except: return False`. When SQLAlchemy is absent, `self.AsyncSession` is
`None` and calling it raises inside the `try`. -/
def sqlHealthCheck (sessionFactory : Option Unit) (execSelect1 : Except PyErr Unit) :
    Except PyErr Bool :=
  tryExceptBool (match sessionFactory with
    | none => .error .exc
    | some _ => do
        _ ← execSelect1
        pure true)

/-! ## Shared derived notions used by the claims -/

/-- Number of documents whose `email` field equals the given string. -/
def mongoCountEmail (docs : List (List (String × Value))) (email : String) : Nat :=
  docs.countP (fun d => decide (dget "email" d = some (Value.str email)))

/-- Number of rows with the given email. -/
def sqlCountEmail (rows : List SqlUser) (email : String) : Nat :=
  rows.countP (fun r => decide (r.email = email))

/-- The canonical-record shape: exactly the four keys `id`, `name`, `email`,
`age` in order, `id` holding a string, and no other key present. -/
def canonicalShape (r : List (String × Value)) : Prop :=
  r.map Prod.fst = ["id", "name", "email", "age"] ∧
  (∃ s, dget "id" r = some (.str s)) ∧
  (∀ k, k ∉ (["id", "name", "email", "age"] : List String) → dget k r = none)

/-! ## Helper lemmas -/

theorem dget_cons_self {k : String} {v : Value} {d : List (String × Value)} :
    dget k ((k, v) :: d) = some v := by
  simp [dget]

theorem dget_cons_ne {k k' : String} {v : Value} {d : List (String × Value)}
    (h : ¬ k' = k) : dget k ((k', v) :: d) = dget k d := by
  simp [dget, h]

theorem dget_dset_self (k : String) (v : Value) (d : List (String × Value)) :
    dget k (dset k v d) = some v := by
  induction d with
  | nil => simp [dset, dget]
  | cons kv rest ih =>
    obtain ⟨k', v'⟩ := kv
    by_cases h : k' = k
    · subst h; simp [dset, dget]
    · simp only [dset, if_neg h]
      rw [dget_cons_ne h, ih]

theorem dget_dset_ne (k k' : String) (v : Value) (d : List (String × Value))
    (h : ¬ k' = k) : dget k (dset k' v d) = dget k d := by
  induction d with
  | nil => simp [dset, dget, h]
  | cons kv rest ih =>
    obtain ⟨a, b⟩ := kv
    by_cases ha : a = k'
    · rw [dset, if_pos ha, dget_cons_ne h, dget_cons_ne (ha ▸ h)]
    · rw [dset, if_neg ha]
      by_cases hak : a = k
      · subst hak; rw [dget_cons_self, dget_cons_self]
      · rw [dget_cons_ne hak, dget_cons_ne hak, ih]

theorem find?_decomp {α : Type} {p : α → Bool} {l : List α} {x : α}
    (h : l.find? p = some x) :
    ∃ pre post, l = pre ++ x :: post ∧ (∀ y ∈ pre, p y = false) ∧ p x = true := by
  induction l with
  | nil => simp [List.find?] at h
  | cons a rest ih =>
    cases hpa : p a with
    | true =>
      rw [List.find?_cons_of_pos _ hpa] at h
      obtain rfl : a = x := by exact Option.some.inj h
      exact ⟨[], rest, rfl, by simp, hpa⟩
    | false =>
      rw [List.find?_cons_of_neg _ (by simp [hpa])] at h
      obtain ⟨pre, post, hl, hpre, hx⟩ := ih h
      refine ⟨a :: pre, post, by simp [hl], ?_, hx⟩
      intro y hy
      rcases List.mem_cons.mp hy with rfl | hy
      · exact hpa
      · exact hpre y hy

theorem find?_append_left_none {α : Type} {p : α → Bool} {pre l : List α}
    (h : ∀ y ∈ pre, p y = false) : (pre ++ l).find? p = l.find? p := by
  induction pre with
  | nil => rfl
  | cons a rest ih =>
    have ha : p a = false := h a (by simp)
    rw [List.cons_append, List.find?_cons_of_neg _ (by simp [ha])]
    exact ih (fun y hy => h y (by simp [hy]))

theorem mongoUpdateOne_append (email : String) (upd : List (String × Value))
    (pre post : List (List (String × Value))) (d : List (String × Value))
    (hpre : ∀ y ∈ pre, ¬ dget "email" y = some (Value.str email))
    (hd : dget "email" d = some (Value.str email)) :
    mongoUpdateOne email upd (pre ++ d :: post) = pre ++ applySet upd d :: post := by
  induction pre with
  | nil => simp [mongoUpdateOne, hd]
  | cons a rest ih =>
    have ha := hpre a (by simp)
    rw [List.cons_append, mongoUpdateOne, if_neg ha, List.cons_append,
      ih (fun y hy => hpre y (by simp [hy]))]

theorem mongoDeleteOne_append (email : String)
    (pre post : List (List (String × Value))) (d : List (String × Value))
    (hpre : ∀ y ∈ pre, ¬ dget "email" y = some (Value.str email))
    (hd : dget "email" d = some (Value.str email)) :
    mongoDeleteOne email (pre ++ d :: post) = pre ++ post := by
  induction pre with
  | nil => simp [mongoDeleteOne, hd]
  | cons a rest ih =>
    have ha := hpre a (by simp)
    rw [List.cons_append, mongoDeleteOne, if_neg ha, List.cons_append,
      ih (fun y hy => hpre y (by simp [hy]))]

theorem sqlUpdateRow_append (email : String) (u : UserUpdate)
    (pre post : List SqlUser) (r : SqlUser)
    (hpre : ∀ y ∈ pre, ¬ y.email = email) (hr : r.email = email) :
    sqlUpdateRow email u (pre ++ r :: post) = pre ++ sqlApplyUpdate u r :: post := by
  induction pre with
  | nil => simp [sqlUpdateRow, hr]
  | cons a rest ih =>
    have ha := hpre a (by simp)
    rw [List.cons_append, sqlUpdateRow, if_neg ha, List.cons_append,
      ih (fun y hy => hpre y (by simp [hy]))]

theorem sqlDeleteRow_append (email : String)
    (pre post : List SqlUser) (r : SqlUser)
    (hpre : ∀ y ∈ pre, ¬ y.email = email) (hr : r.email = email) :
    sqlDeleteRow email (pre ++ r :: post) = pre ++ post := by
  induction pre with
  | nil => simp [sqlDeleteRow, hr]
  | cons a rest ih =>
    have ha := hpre a (by simp)
    rw [List.cons_append, sqlDeleteRow, if_neg ha, List.cons_append,
      ih (fun y hy => hpre y (by simp [hy]))]

theorem applySet_fields (u : UserUpdate) (d : List (String × Value)) :
    dget "name" (applySet u.toDict d) =
        (match u.name with | some n => some (Value.str n) | none => dget "name" d) ∧
    dget "email" (applySet u.toDict d) =
        (match u.email with | some e => some (Value.str e) | none => dget "email" d) ∧
    dget "age" (applySet u.toDict d) =
        (match u.age with | some a => some (ageValue a) | none => dget "age" d) ∧
    ∀ k, ¬ "name" = k → ¬ "email" = k → ¬ "age" = k →
      dget k (applySet u.toDict d) = dget k d := by
  obtain ⟨n, e, a⟩ := u
  cases n <;> cases e <;> cases a <;>
    refine ⟨?_, ?_, ?_, fun k h1 h2 h3 => ?_⟩ <;>
    simp [UserUpdate.toDict, applySet, dget_dset_self, dget_dset_ne, *]

theorem dget_convert_id (d : List (String × Value)) :
    dget "id" (convertMongoUserToDict d) =
      some (.str (match dget "_id" d with | some v => v.pyStr | none => "")) := by
  simp [convertMongoUserToDict, dget]

theorem dget_convert_name (d : List (String × Value)) :
    dget "name" (convertMongoUserToDict d) = some ((dget "name" d).getD (.str "")) := by
  simp [convertMongoUserToDict, dget]

theorem dget_convert_email (d : List (String × Value)) :
    dget "email" (convertMongoUserToDict d) = some ((dget "email" d).getD (.str "")) := by
  simp [convertMongoUserToDict, dget]

theorem dget_convert_age (d : List (String × Value)) :
    dget "age" (convertMongoUserToDict d) = some ((dget "age" d).getD .null) := by
  simp [convertMongoUserToDict, dget]

theorem canonicalShape_convertMongo (d : List (String × Value)) :
    canonicalShape (convertMongoUserToDict d) := by
  refine ⟨rfl, ⟨_, dget_convert_id d⟩, ?_⟩
  intro k hk
  simp only [List.mem_cons, List.not_mem_nil, or_false, not_or] at hk
  obtain ⟨h1, h2, h3, h4⟩ := hk
  simp only [convertMongoUserToDict]
  rw [dget_cons_ne (fun h => h1 h.symm), dget_cons_ne (fun h => h2 h.symm),
    dget_cons_ne (fun h => h3 h.symm), dget_cons_ne (fun h => h4 h.symm)]
  rfl

theorem canonicalShape_convertSql (r : SqlUser) :
    canonicalShape (convertSqlUserToDict r) := by
  refine ⟨rfl, ⟨_, rfl⟩, ?_⟩
  intro k hk
  simp only [List.mem_cons, List.not_mem_nil, or_false, not_or] at hk
  obtain ⟨h1, h2, h3, h4⟩ := hk
  simp only [convertSqlUserToDict]
  rw [dget_cons_ne (fun h => h1 h.symm), dget_cons_ne (fun h => h2 h.symm),
    dget_cons_ne (fun h => h3 h.symm), dget_cons_ne (fun h => h4 h.symm)]
  rfl

/-! ## Claim theorems -/

/-- C5: the document-store adapter's native-to-canonical conversion is total
on every stored document: a missing `_id` maps to the empty string, missing
`name`/`email` map to the empty string, a missing `age` maps to null, and
present fields are copied (the native identifier stringified). -/
theorem C5_mongo_convert_defaults (d : List (String × Value)) :
    (dget "_id" d = none → dget "id" (convertMongoUserToDict d) = some (.str "")) ∧
    (∀ v, dget "_id" d = some v →
      dget "id" (convertMongoUserToDict d) = some (.str v.pyStr)) ∧
    (dget "name" d = none → dget "name" (convertMongoUserToDict d) = some (.str "")) ∧
    (∀ v, dget "name" d = some v → dget "name" (convertMongoUserToDict d) = some v) ∧
    (dget "email" d = none → dget "email" (convertMongoUserToDict d) = some (.str "")) ∧
    (∀ v, dget "email" d = some v → dget "email" (convertMongoUserToDict d) = some v) ∧
    (dget "age" d = none → dget "age" (convertMongoUserToDict d) = some .null) ∧
    (∀ v, dget "age" d = some v → dget "age" (convertMongoUserToDict d) = some v) := by
  refine ⟨?_, ?_, ?_, ?_, ?_, ?_, ?_, ?_⟩
  · intro h; rw [dget_convert_id, h]
  · intro v h; rw [dget_convert_id, h]
  · intro h; rw [dget_convert_name, h]; rfl
  · intro v h; rw [dget_convert_name, h]; rfl
  · intro h; rw [dget_convert_email, h]; rfl
  · intro v h; rw [dget_convert_email, h]; rfl
  · intro h; rw [dget_convert_age, h]; rfl
  · intro v h; rw [dget_convert_age, h]; rfl

/-- Witness for C5 at concrete documents: the empty (fully missing) document
maps to all defaults, and a present `age`/`_id` are copied. -/
theorem C5_witness :
    dget "id" (convertMongoUserToDict []) = some (.str "") ∧
    dget "name" (convertMongoUserToDict []) = some (.str "") ∧
    dget "age" (convertMongoUserToDict []) = some .null ∧
    dget "id" (convertMongoUserToDict [("_id", .oid 7)]) = some (.str "7") ∧
    dget "age" (convertMongoUserToDict [("age", .int 30)]) = some (.int 30) := by
  refine ⟨(C5_mongo_convert_defaults []).1 rfl,
    (C5_mongo_convert_defaults []).2.2.1 rfl,
    (C5_mongo_convert_defaults []).2.2.2.2.2.2.1 rfl,
    (C5_mongo_convert_defaults [("_id", .oid 7)]).2.1 (.oid 7) (by decide),
    (C5_mongo_convert_defaults [("age", .int 30)]).2.2.2.2.2.2.2 (.int 30) (by decide)⟩

/-- C8: lifecycle operations never throw: `connect` and `health_check`
always return a boolean (for any driver outcome), returning `false` when the
driver library is absent, when the store round-trip raises, or (for
`health_check`) when called before a successful `connect`; `disconnect`
returns without raising in every case. Both adapters. -/
theorem C8_lifecycle_never_throws :
    (∀ m ping cc, ∃ b, mongoConnect m ping cc = .ok b) ∧
    (∀ ping cc, mongoConnect false ping cc = .ok false) ∧
    (∀ m e cc, mongoConnect m (.error e) cc = .ok false) ∧
    (∀ c, mongoDisconnect c = .ok ()) ∧
    (∀ db ping, ∃ b, mongoHealthCheck db ping = .ok b) ∧
    (∀ ping, mongoHealthCheck none ping = .ok false) ∧
    (∀ db e, mongoHealthCheck db (.error e) = .ok false) ∧
    (∀ s ca, ∃ b, sqlConnect s ca = .ok b) ∧
    (∀ ca, sqlConnect false ca = .ok false) ∧
    (∀ s e, sqlConnect s (.error e) = .ok false) ∧
    (∀ eng, sqlDisconnect eng = .ok ()) ∧
    (∀ sf ex, ∃ b, sqlHealthCheck sf ex = .ok b) ∧
    (∀ ex, sqlHealthCheck none ex = .ok false) ∧
    (∀ sf e, sqlHealthCheck sf (.error e) = .ok false) := by
  refine ⟨?_, ?_, ?_, ?_, ?_, ?_, ?_, ?_, ?_, ?_, ?_, ?_, ?_, ?_⟩
  · intro m ping cc
    cases m <;> rcases ping with e | u <;> rcases cc with e' | u' <;> exact ⟨_, rfl⟩
  · intro ping cc; rfl
  · intro m e cc
    cases m <;> rcases cc with e' | u' <;> rfl
  · intro c; cases c <;> rfl
  · intro db ping
    cases db <;> rcases ping with e | u <;> exact ⟨_, rfl⟩
  · intro ping; rfl
  · intro db e; cases db <;> rfl
  · intro s ca
    cases s <;> rcases ca with e | u <;> exact ⟨_, rfl⟩
  · intro ca; rfl
  · intro s e; cases s <;> rfl
  · intro eng; cases eng <;> rfl
  · intro sf ex
    cases sf <;> rcases ex with e | u <;> exact ⟨_, rfl⟩
  · intro ex; rfl
  · intro sf e; cases sf <;> rfl

/-- C10: with `DB_TYPE` absent the factory defaults to the MongoDB adapter,
and with `MONGODB_URI` / `MONGODB_DB` also absent it is constructed with the
default URI `mongodb://localhost:27017` and database name `dummydatabase`. -/
theorem C10_factory_default_mongo :
    (∀ env : Env, env.dbType = none →
      getDatabaseAdapter env =
        some (.mongo (env.mongodbUri.getD "mongodb://localhost:27017")
                     (env.mongodbDb.getD "dummydatabase"))) ∧
    (∀ env : Env, env.dbType = none → env.mongodbUri = none → env.mongodbDb = none →
      getDatabaseAdapter env = some (.mongo "mongodb://localhost:27017" "dummydatabase")) := by
  have hlow : pyLower "mongodb" = "mongodb" := by decide
  constructor
  · intro env h
    simp [getDatabaseAdapter, h, hlow]
  · intro env h h1 h2
    simp [getDatabaseAdapter, h, h1, h2, hlow]

/-- Witness for C10: the all-absent environment yields the MongoDB adapter
with both defaults. -/
theorem C10_witness :
    getDatabaseAdapter ⟨none, none, none, none, none, none, none⟩ =
      some (.mongo "mongodb://localhost:27017" "dummydatabase") :=
  C10_factory_default_mongo.2 ⟨none, none, none, none, none, none, none⟩ rfl rfl rfl

/-- C9: every user record returned by `create_user`, `get_all_users`,
`get_user_by_email`, or `update_user` of either adapter has exactly the four
keys `id`, `name`, `email`, `age`, with `id` always a string; extra fields of
a stored document are never exposed. -/
theorem C9_canonical_shape :
    (∀ d, canonicalShape (convertMongoUserToDict d)) ∧
    (∀ r, canonicalShape (convertSqlUserToDict r)) ∧
    (∀ st p rec, (mongoCreateUser st p).1 = .ok (some rec) → canonicalShape rec) ∧
    (∀ st rec, rec ∈ mongoGetAllUsers st → canonicalShape rec) ∧
    (∀ st e rec, mongoGetUserByEmail st e = some rec → canonicalShape rec) ∧
    (∀ st e u rec, (mongoUpdateUser st e u).1 = .ok (some rec) → canonicalShape rec) ∧
    (∀ st p rec, (sqlCreateUser st p).1 = .ok (some rec) → canonicalShape rec) ∧
    (∀ st rec, rec ∈ sqlGetAllUsers st → canonicalShape rec) ∧
    (∀ st e rec, sqlGetUserByEmail st e = some rec → canonicalShape rec) ∧
    (∀ st e u rec, (sqlUpdateUser st e u).1 = .ok (some rec) → canonicalShape rec) := by
  refine ⟨canonicalShape_convertMongo, canonicalShape_convertSql,
    ?_, ?_, ?_, ?_, ?_, ?_, ?_, ?_⟩
  · intro st p rec h
    cases hfind : mongoFindByEmail st.docs p.email with
    | some d => simp [mongoCreateUser, hfind] at h
    | none =>
      simp only [mongoCreateUser, hfind] at h
      cases hid : mongoFindById (st.docs ++ [("_id", Value.oid st.nextId) :: p.toDict])
          st.nextId with
      | none => rw [hid] at h; simp [convertMongoUser] at h
      | some d =>
        rw [hid] at h
        simp only [convertMongoUser, Except.ok.injEq, Option.some.injEq] at h
        exact h ▸ canonicalShape_convertMongo d
  · intro st rec h
    obtain ⟨d, -, rfl⟩ := List.mem_map.mp h
    exact canonicalShape_convertMongo d
  · intro st e rec h
    cases hfind : mongoFindByEmail st.docs e with
    | none => simp [mongoGetUserByEmail, hfind] at h
    | some d =>
      simp only [mongoGetUserByEmail, hfind, Option.some.injEq] at h
      exact h ▸ canonicalShape_convertMongo d
  · intro st e u rec h
    cases hfind : mongoFindByEmail st.docs e with
    | none => simp [mongoUpdateUser, hfind] at h
    | some d =>
      simp only [mongoUpdateUser, hfind] at h
      cases hdup : mongoUpdateDupCheck st.docs e u with
      | true => rw [hdup] at h; simp at h
      | false =>
        rw [hdup] at h
        simp only [Bool.false_eq_true, if_false] at h
        cases hcall : mongoUpdateOneCall e u.toDict st.docs with
        | error ex => rw [hcall] at h; simp at h
        | ok docs' =>
          rw [hcall] at h
          dsimp only at h
          cases hre : mongoFindByEmail docs' (u.email.getD e) with
          | none => rw [hre] at h; simp [convertMongoUser] at h
          | some d' =>
            rw [hre] at h
            simp only [convertMongoUser, Except.ok.injEq, Option.some.injEq] at h
            exact h ▸ canonicalShape_convertMongo d'
  · intro st p rec h
    cases hfind : sqlFindByEmail st.rows p.email with
    | some r => simp [sqlCreateUser, hfind] at h
    | none =>
      simp only [sqlCreateUser, hfind, Except.ok.injEq, Option.some.injEq] at h
      exact h ▸ canonicalShape_convertSql _
  · intro st rec h
    obtain ⟨r, -, rfl⟩ := List.mem_map.mp h
    exact canonicalShape_convertSql r
  · intro st e rec h
    cases hfind : sqlFindByEmail st.rows e with
    | none => simp [sqlGetUserByEmail, hfind] at h
    | some r =>
      simp only [sqlGetUserByEmail, hfind, Option.some.injEq] at h
      exact h ▸ canonicalShape_convertSql r
  · intro st e u rec h
    cases hfind : sqlFindByEmail st.rows e with
    | none => simp [sqlUpdateUser, hfind] at h
    | some r =>
      simp only [sqlUpdateUser, hfind] at h
      cases hdup : sqlUpdateDupCheck st.rows e u with
      | true => rw [hdup] at h; simp at h
      | false =>
        rw [hdup] at h
        simp only [Bool.false_eq_true, if_false, Except.ok.injEq, Option.some.injEq] at h
        exact h ▸ canonicalShape_convertSql _

/-- Witness for C9 at a concrete operation result: what `get_user_by_email`
returns for a stored document carrying an extra field has the canonical
shape. -/
theorem C9_witness :
    canonicalShape [("id", Value.str "3"), ("name", .str "Ann"),
      ("email", .str "a@x.com"), ("age", .int 20)] :=
  C9_canonical_shape.2.2.2.2.1
    ⟨[[("_id", .oid 3), ("name", .str "Ann"), ("email", .str "a@x.com"),
       ("age", .int 20), ("legacy", .str "junk")]], 4⟩
    "a@x.com" _ (by decide)

/-- C7: the factory is case-insensitive in the store kind; `mongodb` maps to
the document-store adapter; each of the four relational kinds maps to the
relational adapter, with `DATABASE_URL` taking priority, then the
kind-specific variable, then the kind's own default connection string (used
only when no explicit connection string is configured); every other kind
yields no adapter. -/
theorem C7_factory_selection :
    (∀ (env : Env) (s₁ s₂ : String), pyLower s₁ = pyLower s₂ →
      getDatabaseAdapter { env with dbType := some s₁ } =
      getDatabaseAdapter { env with dbType := some s₂ }) ∧
    (∀ (env : Env) (s : String), env.dbType = some s → pyLower s = "mongodb" →
      getDatabaseAdapter env =
        some (.mongo (env.mongodbUri.getD "mongodb://localhost:27017")
                     (env.mongodbDb.getD "dummydatabase"))) ∧
    (∀ (env : Env) (s : String), env.dbType = some s →
      (pyLower s = "postgresql" ∨ pyLower s = "postgres") →
      (∀ url, env.databaseUrl = some url → getDatabaseAdapter env = some (.sql url)) ∧
      (∀ url, env.databaseUrl = none → env.postgresUrl = some url →
        getDatabaseAdapter env = some (.sql url)) ∧
      (env.databaseUrl = none → env.postgresUrl = none →
        getDatabaseAdapter env = some (.sql "postgresql://localhost/mydb"))) ∧
    (∀ (env : Env) (s : String), env.dbType = some s → pyLower s = "mysql" →
      (∀ url, env.databaseUrl = some url → getDatabaseAdapter env = some (.sql url)) ∧
      (∀ url, env.databaseUrl = none → env.mysqlUrl = some url →
        getDatabaseAdapter env = some (.sql url)) ∧
      (env.databaseUrl = none → env.mysqlUrl = none →
        getDatabaseAdapter env = some (.sql "mysql://root@localhost/mydb"))) ∧
    (∀ (env : Env) (s : String), env.dbType = some s → pyLower s = "sqlite" →
      (∀ url, env.databaseUrl = some url → getDatabaseAdapter env = some (.sql url)) ∧
      (∀ url, env.databaseUrl = none → env.sqliteUrl = some url →
        getDatabaseAdapter env = some (.sql url)) ∧
      (env.databaseUrl = none → env.sqliteUrl = none →
        getDatabaseAdapter env = some (.sql "sqlite:///./mydb.db"))) ∧
    (∀ (env : Env) (s : String), env.dbType = some s →
      pyLower s ∉ (["mongodb", "postgresql", "postgres", "mysql", "sqlite"] : List String) →
      getDatabaseAdapter env = none) := by
  refine ⟨?_, ?_, ?_, ?_, ?_, ?_⟩
  · intro env s₁ s₂ h
    simp only [getDatabaseAdapter, Option.getD_some]
    rw [h]
  · intro env s h hlow
    simp [getDatabaseAdapter, h, hlow]
  · intro env s h hlow
    refine ⟨?_, ?_, ?_⟩
    · intro url hurl
      rcases hlow with hlow | hlow <;> simp [getDatabaseAdapter, h, hlow, hurl]
    · intro url hdb hurl
      rcases hlow with hlow | hlow <;> simp [getDatabaseAdapter, h, hlow, hdb, hurl]
    · intro hdb hurl
      rcases hlow with hlow | hlow <;> simp [getDatabaseAdapter, h, hlow, hdb, hurl]
  · intro env s h hlow
    refine ⟨?_, ?_, ?_⟩
    · intro url hurl; simp [getDatabaseAdapter, h, hlow, hurl]
    · intro url hdb hurl; simp [getDatabaseAdapter, h, hlow, hdb, hurl]
    · intro hdb hurl; simp [getDatabaseAdapter, h, hlow, hdb, hurl]
  · intro env s h hlow
    refine ⟨?_, ?_, ?_⟩
    · intro url hurl; simp [getDatabaseAdapter, h, hlow, hurl]
    · intro url hdb hurl; simp [getDatabaseAdapter, h, hlow, hdb, hurl]
    · intro hdb hurl; simp [getDatabaseAdapter, h, hlow, hdb, hurl]
  · intro env s h hlow
    simp only [List.mem_cons, List.not_mem_nil, or_false, not_or] at hlow
    obtain ⟨h1, h2, h3, h4, h5⟩ := hlow
    simp [getDatabaseAdapter, h, h1, h2, h3, h4, h5]

/-- Witness for C7: concrete environments exercising the case-insensitive
mongodb kind, a relational kind with its default, an explicit connection
string override, and an unknown kind. -/
theorem C7_witness :
    getDatabaseAdapter ⟨some "MongoDB", none, none, none, none, none, none⟩ =
      some (.mongo "mongodb://localhost:27017" "dummydatabase") ∧
    getDatabaseAdapter ⟨some "POSTGRES", none, none, none, none, none, none⟩ =
      some (.sql "postgresql://localhost/mydb") ∧
    getDatabaseAdapter ⟨some "sqlite", none, none, some "sqlite:///x.db", none, none, none⟩ =
      some (.sql "sqlite:///x.db") ∧
    getDatabaseAdapter ⟨some "oracle", none, none, none, none, none, none⟩ = none := by
  refine ⟨?_, ?_, ?_, ?_⟩
  · exact C7_factory_selection.2.1 _ "MongoDB" rfl (by decide)
  · exact (C7_factory_selection.2.2.1 _ "POSTGRES" rfl (Or.inr (by decide))).2.2 rfl rfl
  · exact (C7_factory_selection.2.2.2.2.1 _ "sqlite" rfl (by decide)).1 _ rfl
  · exact C7_factory_selection.2.2.2.2.2 _ "oracle" rfl (by decide)

theorem isPrefixOf_append_self (ps rest : List Char) :
    ps.isPrefixOf (ps ++ rest) = true := by
  induction ps with
  | nil => simp [List.isPrefixOf]
  | cons a as ih => simp [List.isPrefixOf, ih]

theorem replaceFrom_of_not_occurs (p : Char) (ps repl : List Char) :
    ∀ s, occursIn (p :: ps) s = false → replaceFrom p ps repl s = s := by
  intro s
  induction s with
  | nil => intro _; rw [replaceFrom]
  | cons c cs ih =>
    intro h
    rw [occursIn, Bool.or_eq_false_iff] at h
    obtain ⟨h1, h2⟩ := h
    have hc : (p == c && ps.isPrefixOf cs) = false := by
      simpa [List.isPrefixOf] using h1
    rw [replaceFrom, hc]
    simp [ih h2]

theorem replaceFrom_append (p : Char) (ps repl rest : List Char) :
    replaceFrom p ps repl ((p :: ps) ++ rest) = repl ++ replaceFrom p ps repl rest := by
  rw [List.cons_append, replaceFrom]
  simp [isPrefixOf_append_self, List.drop_left]

/-- C6 (amended): the URL normalization rewrites the three known synchronous
schemes to their async driver variants and returns every other URL
unchanged; however, the rewrite is skipped exactly when the URL contains a
`'+'` character anywhere (not merely as a driver qualifier after the
scheme), and it is performed with Python `str.replace`, so it is a pure
scheme rewrite whenever the scheme string occurs only as the URL's
prefix. -/
theorem C6_url_rewrite_amended :
    (∀ u, u.contains '+' = true → convertUrlToAsyncL u = u) ∧
    (∀ u, u.contains '+' = false →
      "postgresql://".toList.isPrefixOf u = false →
      "mysql://".toList.isPrefixOf u = false →
      "sqlite://".toList.isPrefixOf u = false →
      convertUrlToAsyncL u = u) ∧
    (∀ rest, ("postgresql://".toList ++ rest).contains '+' = false →
      occursIn "postgresql://".toList rest = false →
      convertUrlToAsyncL ("postgresql://".toList ++ rest) =
        "postgresql+asyncpg://".toList ++ rest) ∧
    (∀ rest, ("mysql://".toList ++ rest).contains '+' = false →
      occursIn "mysql://".toList rest = false →
      convertUrlToAsyncL ("mysql://".toList ++ rest) =
        "mysql+aiomysql://".toList ++ rest) ∧
    (∀ rest, ("sqlite://".toList ++ rest).contains '+' = false →
      occursIn "sqlite://".toList rest = false →
      convertUrlToAsyncL ("sqlite://".toList ++ rest) =
        "sqlite+aiosqlite://".toList ++ rest) := by
  refine ⟨?_, ?_, ?_, ?_, ?_⟩
  · intro u h
    rw [convertUrlToAsyncL, h]
    rfl
  · intro u h hpg hmy hsq
    rw [convertUrlToAsyncL, h, hpg, hmy, hsq]
    rfl
  · intro rest h hocc
    rw [convertUrlToAsyncL, h]
    simp only [Bool.false_eq_true, if_false, isPrefixOf_append_self, if_true]
    have hocc' : occursIn ('p' :: "ostgresql://".toList) rest = false := hocc
    rw [show ("postgresql://".toList) = 'p' :: "ostgresql://".toList from rfl,
      pyStrReplace, replaceFrom_append,
      replaceFrom_of_not_occurs _ _ _ rest hocc']
  · intro rest h hocc
    rw [convertUrlToAsyncL, h]
    have hpg : "postgresql://".toList.isPrefixOf ("mysql://".toList ++ rest) = false := by
      simp [List.isPrefixOf]
    rw [hpg]
    simp only [Bool.false_eq_true, if_false, isPrefixOf_append_self, if_true]
    have hocc' : occursIn ('m' :: "ysql://".toList) rest = false := hocc
    rw [show ("mysql://".toList) = 'm' :: "ysql://".toList from rfl,
      pyStrReplace, replaceFrom_append,
      replaceFrom_of_not_occurs _ _ _ rest hocc']
  · intro rest h hocc
    rw [convertUrlToAsyncL, h]
    have hpg : "postgresql://".toList.isPrefixOf ("sqlite://".toList ++ rest) = false := by
      simp [List.isPrefixOf]
    have hmy : "mysql://".toList.isPrefixOf ("sqlite://".toList ++ rest) = false := by
      simp [List.isPrefixOf]
    rw [hpg, hmy]
    simp only [Bool.false_eq_true, if_false, isPrefixOf_append_self, if_true]
    have hocc' : occursIn ('s' :: "qlite://".toList) rest = false := hocc
    rw [show ("sqlite://".toList) = 's' :: "qlite://".toList from rfl,
      pyStrReplace, replaceFrom_append,
      replaceFrom_of_not_occurs _ _ _ rest hocc']

/-- Counterexample to C6 as stated: `sqlite:///data+base.db` starts with the
`sqlite://` scheme and has no driver qualifier after the scheme (no `'+'`
before the `':'`), so the claim requires the async rewrite; the code returns
the URL unchanged because a `'+'` occurs elsewhere in it. -/
theorem C6_counterexample :
    "sqlite://".toList.isPrefixOf "sqlite:///data+base.db".toList = true ∧
    ("sqlite:///data+base.db".toList.takeWhile (fun c => !(c == ':'))).contains '+'
      = false ∧
    convertUrlToAsync "sqlite:///data+base.db" = "sqlite:///data+base.db" ∧
    ¬ convertUrlToAsync "sqlite:///data+base.db" = "sqlite+aiosqlite:///data+base.db" := by
  refine ⟨by decide, by decide, by decide, by decide⟩

/-- Witness for C6 (amended) at concrete URLs: a plain `postgresql://` URL is
rewritten to the asyncpg scheme, and a URL containing `'+'` is returned
unchanged. -/
theorem C6_witness :
    convertUrlToAsyncL ("postgresql://".toList ++ "localhost/mydb".toList) =
      "postgresql+asyncpg://".toList ++ "localhost/mydb".toList ∧
    convertUrlToAsyncL "sqlite:///data+base.db".toList = "sqlite:///data+base.db".toList := by
  constructor
  · exact C6_url_rewrite_amended.2.2.1 "localhost/mydb".toList (by decide) (by decide)
  · exact C6_url_rewrite_amended.1 "sqlite:///data+base.db".toList (by decide)

/-- C1: `create_user` fails with `DuplicateKey` exactly when a record with
the payload's email already exists; on that failure the store is unchanged
(and, emails being unique, exactly one record with that email exists
afterward); otherwise the newly inserted record is returned in canonical
form, including its generated id. Both adapters. -/
theorem C1_create_duplicate :
    (∀ (st : MongoState) (p : UserCreate),
      ((mongoCreateUser st p).1 = .error .duplicateKey ↔
        ∃ d ∈ st.docs, dget "email" d = some (.str p.email)) ∧
      ((mongoCreateUser st p).1 = .error .duplicateKey →
        (mongoCreateUser st p).2 = st ∧
        (mongoCountEmail st.docs p.email ≤ 1 →
          mongoCountEmail (mongoCreateUser st p).2.docs p.email = 1)) ∧
      ((¬ ∃ d ∈ st.docs, dget "email" d = some (.str p.email)) →
        (∀ d ∈ st.docs, ¬ dget "_id" d = some (.oid st.nextId)) →
        mongoCreateUser st p =
          (.ok (some [("id", .str (toString st.nextId)), ("name", .str p.name),
                      ("email", .str p.email), ("age", ageValue p.age)]),
           ⟨st.docs ++ [("_id", .oid st.nextId) :: p.toDict], st.nextId + 1⟩))) ∧
    (∀ (st : SqlState) (p : UserCreate),
      ((sqlCreateUser st p).1 = .error .duplicateKey ↔
        ∃ r ∈ st.rows, r.email = p.email) ∧
      ((sqlCreateUser st p).1 = .error .duplicateKey →
        (sqlCreateUser st p).2 = st ∧
        (sqlCountEmail st.rows p.email ≤ 1 →
          sqlCountEmail (sqlCreateUser st p).2.rows p.email = 1)) ∧
      ((¬ ∃ r ∈ st.rows, r.email = p.email) →
        sqlCreateUser st p =
          (.ok (some [("id", .str (toString st.nextId)), ("name", .str p.name),
                      ("email", .str p.email), ("age", ageValue p.age)]),
           ⟨st.rows ++ [⟨st.nextId, p.name, p.email, p.age⟩], st.nextId + 1⟩))) := by
  constructor
  · intro st p
    refine ⟨?_, ?_, ?_⟩
    · cases hfind : mongoFindByEmail st.docs p.email with
      | some d =>
        have hfind' : List.find?
            (fun x => decide (dget "email" x = some (Value.str p.email))) st.docs
            = some d := hfind
        have hpd := List.find?_some hfind'
        simp only [mongoCreateUser, hfind]
        exact ⟨fun _ => ⟨d, List.mem_of_find?_eq_some hfind', of_decide_eq_true hpd⟩,
          fun _ => trivial⟩
      | none =>
        simp only [mongoCreateUser, hfind]
        constructor
        · intro h; exact absurd h (by simp)
        · rintro ⟨d, hd, hde⟩
          have hne := List.find?_eq_none.mp hfind d hd
          exact absurd (decide_eq_true hde) (by simpa using hne)
    · intro herr
      cases hfind : mongoFindByEmail st.docs p.email with
      | none => simp [mongoCreateUser, hfind] at herr
      | some d =>
        have hst : (mongoCreateUser st p).2 = st := by
          simp [mongoCreateUser, hfind]
        refine ⟨hst, ?_⟩
        intro hle
        rw [hst]
        have hfind' : List.find?
            (fun x => decide (dget "email" x = some (Value.str p.email))) st.docs
            = some d := hfind
        have hpd := List.find?_some hfind'
        have hpos : 0 < mongoCountEmail st.docs p.email :=
          List.countP_pos_iff.mpr ⟨d, List.mem_of_find?_eq_some hfind', hpd⟩
        omega
    · intro hnone hfresh
      have hfind : mongoFindByEmail st.docs p.email = none :=
        List.find?_eq_none.mpr (fun d hd => by
          simp only [decide_eq_true_eq]
          exact fun hde => hnone ⟨d, hd, hde⟩)
      have hid : mongoFindById (st.docs ++ [("_id", Value.oid st.nextId) :: p.toDict])
          st.nextId = some (("_id", Value.oid st.nextId) :: p.toDict) := by
        have hpre : ∀ y ∈ st.docs,
            (fun d => decide (dget "_id" d = some (Value.oid st.nextId))) y = false := by
          intro y hy
          simp only [decide_eq_false_iff_not]
          exact hfresh y hy
        show List.find? _ _ = _
        rw [find?_append_left_none hpre]
        exact List.find?_cons_of_pos _ (decide_eq_true dget_cons_self)
      have hconv : convertMongoUserToDict (("_id", Value.oid st.nextId) :: p.toDict) =
          [("id", .str (toString st.nextId)), ("name", .str p.name),
           ("email", .str p.email), ("age", ageValue p.age)] := by
        simp [convertMongoUserToDict, UserCreate.toDict, dget, Value.pyStr]
      simp [mongoCreateUser, hfind, hid, convertMongoUser, hconv]
  · intro st p
    refine ⟨?_, ?_, ?_⟩
    · cases hfind : sqlFindByEmail st.rows p.email with
      | some r =>
        have hfind' : List.find? (fun x => decide (x.email = p.email)) st.rows
            = some r := hfind
        have hpr := List.find?_some hfind'
        simp only [sqlCreateUser, hfind]
        exact ⟨fun _ => ⟨r, List.mem_of_find?_eq_some hfind', of_decide_eq_true hpr⟩,
          fun _ => trivial⟩
      | none =>
        simp only [sqlCreateUser, hfind]
        constructor
        · intro h; exact absurd h (by simp)
        · rintro ⟨r, hr, hre⟩
          have hne := List.find?_eq_none.mp hfind r hr
          exact absurd (decide_eq_true hre) (by simpa using hne)
    · intro herr
      cases hfind : sqlFindByEmail st.rows p.email with
      | none => simp [sqlCreateUser, hfind] at herr
      | some r =>
        have hst : (sqlCreateUser st p).2 = st := by
          simp [sqlCreateUser, hfind]
        refine ⟨hst, ?_⟩
        intro hle
        rw [hst]
        have hfind' : List.find? (fun x => decide (x.email = p.email)) st.rows
            = some r := hfind
        have hpr := List.find?_some hfind'
        have hpos : 0 < sqlCountEmail st.rows p.email :=
          List.countP_pos_iff.mpr ⟨r, List.mem_of_find?_eq_some hfind', hpr⟩
        omega
    · intro hnone
      have hfind : sqlFindByEmail st.rows p.email = none :=
        List.find?_eq_none.mpr (fun r hr => by
          simp only [decide_eq_true_eq]
          exact fun hre => hnone ⟨r, hr, hre⟩)
      simp [sqlCreateUser, hfind, convertSqlUserToDict]

/-- Witness for C1: creating a first user in the empty store succeeds and
returns the canonical record with the generated id; creating a second user
with the same email fails with `DuplicateKey` and leaves the store
unchanged. -/
theorem C1_witness :
    mongoCreateUser ⟨[], 0⟩ ⟨"Ann", "a@x.com", some 20⟩ =
      (.ok (some [("id", .str "0"), ("name", .str "Ann"),
                  ("email", .str "a@x.com"), ("age", .int 20)]),
       ⟨[[("_id", .oid 0), ("name", .str "Ann"), ("email", .str "a@x.com"),
          ("age", .int 20)]], 1⟩) ∧
    ((mongoCreateUser ⟨[[("_id", .oid 0), ("name", .str "Ann"),
          ("email", .str "a@x.com"), ("age", .int 20)]], 1⟩
        ⟨"Bob", "a@x.com", none⟩).1 = .error .duplicateKey →
      (mongoCreateUser ⟨[[("_id", .oid 0), ("name", .str "Ann"),
          ("email", .str "a@x.com"), ("age", .int 20)]], 1⟩
        ⟨"Bob", "a@x.com", none⟩).2 =
        ⟨[[("_id", .oid 0), ("name", .str "Ann"), ("email", .str "a@x.com"),
           ("age", .int 20)]], 1⟩ ∧
      (mongoCountEmail [[("_id", .oid 0), ("name", .str "Ann"),
          ("email", .str "a@x.com"), ("age", .int 20)]] "a@x.com" ≤ 1 →
        mongoCountEmail (mongoCreateUser ⟨[[("_id", .oid 0), ("name", .str "Ann"),
            ("email", .str "a@x.com"), ("age", .int 20)]], 1⟩
          ⟨"Bob", "a@x.com", none⟩).2.docs "a@x.com" = 1)) ∧
    sqlCreateUser ⟨[], 1⟩ ⟨"Ann", "a@x.com", some 20⟩ =
      (.ok (some [("id", .str "1"), ("name", .str "Ann"),
                  ("email", .str "a@x.com"), ("age", .int 20)]),
       ⟨[⟨1, "Ann", "a@x.com", some 20⟩], 2⟩) := by
  refine ⟨?_, ?_, ?_⟩
  · exact (C1_create_duplicate.1 ⟨[], 0⟩ ⟨"Ann", "a@x.com", some 20⟩).2.2
      (by simp) (by simp)
  · exact (C1_create_duplicate.1 _ ⟨"Bob", "a@x.com", none⟩).2.1
  · exact (C1_create_duplicate.2 ⟨[], 1⟩ ⟨"Ann", "a@x.com", some 20⟩).2.2 (by simp)

/-- C3: `update_user` on a stored email `e1`, with a payload whose `email`
field equals a different, already-taken email `e2`, fails with
`DuplicateKey`, and the failed call leaves the whole store unchanged (so
neither record is mutated). Both adapters. -/
theorem C3_update_email_taken :
    (∀ (st : MongoState) (e1 e2 : String) (u : UserUpdate)
        (d1 d2 : List (String × Value)),
      ¬ e1 = e2 →
      mongoFindByEmail st.docs e1 = some d1 →
      mongoFindByEmail st.docs e2 = some d2 →
      u.email = some e2 →
      mongoUpdateUser st e1 u = (.error .duplicateKey, st)) ∧
    (∀ (st : SqlState) (e1 e2 : String) (u : UserUpdate) (r1 r2 : SqlUser),
      ¬ e1 = e2 →
      sqlFindByEmail st.rows e1 = some r1 →
      sqlFindByEmail st.rows e2 = some r2 →
      u.email = some e2 →
      sqlUpdateUser st e1 u = (.error .duplicateKey, st)) := by
  constructor
  · intro st e1 e2 u d1 d2 hne hf1 hf2 hue
    have h21 : e2 ≠ e1 := fun h => hne h.symm
    have hdup : mongoUpdateDupCheck st.docs e1 u = true := by
      rw [mongoUpdateDupCheck, hue]
      simp [h21, hf2]
    simp [mongoUpdateUser, hf1, hdup]
  · intro st e1 e2 u r1 r2 hne hf1 hf2 hue
    have h21 : e2 ≠ e1 := fun h => hne h.symm
    have hdup : sqlUpdateDupCheck st.rows e1 u = true := by
      rw [sqlUpdateDupCheck, hue]
      simp [h21, hf2]
    simp [sqlUpdateUser, hf1, hdup]

/-- Witness for C3 at a concrete two-user store: renaming `a@x.com` to the
taken `b@x.com` fails with `DuplicateKey` and leaves the store unchanged, in
both adapters. -/
theorem C3_witness :
    mongoUpdateUser
        ⟨[[("_id", .oid 0), ("name", .str "A"), ("email", .str "a@x.com")],
          [("_id", .oid 1), ("name", .str "B"), ("email", .str "b@x.com")]], 2⟩
        "a@x.com" ⟨none, some "b@x.com", none⟩ =
      (.error .duplicateKey,
       ⟨[[("_id", .oid 0), ("name", .str "A"), ("email", .str "a@x.com")],
         [("_id", .oid 1), ("name", .str "B"), ("email", .str "b@x.com")]], 2⟩) ∧
    sqlUpdateUser ⟨[⟨1, "A", "a@x.com", none⟩, ⟨2, "B", "b@x.com", none⟩], 3⟩
        "a@x.com" ⟨none, some "b@x.com", none⟩ =
      (.error .duplicateKey, ⟨[⟨1, "A", "a@x.com", none⟩, ⟨2, "B", "b@x.com", none⟩], 3⟩) := by
  constructor
  · exact C3_update_email_taken.1 _ "a@x.com" "b@x.com" ⟨none, some "b@x.com", none⟩
      [("_id", .oid 0), ("name", .str "A"), ("email", .str "a@x.com")]
      [("_id", .oid 1), ("name", .str "B"), ("email", .str "b@x.com")]
      (by decide) (by decide) (by decide) rfl
  · exact C3_update_email_taken.2 _ "a@x.com" "b@x.com" ⟨none, some "b@x.com", none⟩
      ⟨1, "A", "a@x.com", none⟩ ⟨2, "B", "b@x.com", none⟩
      (by decide) (by decide) (by decide) rfl

/-- C4: `delete_user` never raises, returns `true` exactly when a record
with the email existed (`false` otherwise), and, emails being unique, a
subsequent `get_user_by_email` for that email returns absent. Both
adapters. -/
theorem C4_delete :
    (∀ (st : MongoState) (e : String),
      (∃ b, (mongoDeleteUser st e).1 = .ok b) ∧
      ((mongoDeleteUser st e).1 = .ok true ↔
        ∃ d ∈ st.docs, dget "email" d = some (.str e)) ∧
      ((mongoDeleteUser st e).1 = .ok false ↔
        ¬ ∃ d ∈ st.docs, dget "email" d = some (.str e)) ∧
      (mongoCountEmail st.docs e ≤ 1 → (mongoDeleteUser st e).1 = .ok true →
        mongoGetUserByEmail (mongoDeleteUser st e).2 e = none)) ∧
    (∀ (st : SqlState) (e : String),
      (∃ b, (sqlDeleteUser st e).1 = .ok b) ∧
      ((sqlDeleteUser st e).1 = .ok true ↔ ∃ r ∈ st.rows, r.email = e) ∧
      ((sqlDeleteUser st e).1 = .ok false ↔ ¬ ∃ r ∈ st.rows, r.email = e) ∧
      (sqlCountEmail st.rows e ≤ 1 → (sqlDeleteUser st e).1 = .ok true →
        sqlGetUserByEmail (sqlDeleteUser st e).2 e = none)) := by
  constructor
  · intro st e
    cases hfind : mongoFindByEmail st.docs e with
    | none =>
      have hfind' : List.find?
          (fun x => decide (dget "email" x = some (Value.str e))) st.docs = none := hfind
      have hnotex : ¬ ∃ d ∈ st.docs, dget "email" d = some (.str e) := by
        rintro ⟨d, hd, hde⟩
        exact List.find?_eq_none.mp hfind' d hd (decide_eq_true hde)
      refine ⟨⟨false, by simp [mongoDeleteUser, hfind]⟩, ?_, ?_, ?_⟩
      · simp only [mongoDeleteUser, hfind]
        exact ⟨fun h => absurd h (by simp), fun hex => absurd hex hnotex⟩
      · simp only [mongoDeleteUser, hfind]
        exact ⟨fun _ => hnotex, fun _ => trivial⟩
      · intro _ htrue
        rw [mongoDeleteUser] at htrue
        simp [hfind] at htrue
    | some d =>
      have hfind' : List.find?
          (fun x => decide (dget "email" x = some (Value.str e))) st.docs = some d := hfind
      obtain ⟨pre, post, hdocs, hpre, hpd⟩ := find?_decomp hfind'
      have hde : dget "email" d = some (.str e) := of_decide_eq_true hpd
      refine ⟨⟨true, by simp [mongoDeleteUser, hfind]⟩, ?_, ?_, ?_⟩
      · simp only [mongoDeleteUser, hfind]
        exact ⟨fun _ => ⟨d, by rw [hdocs]; simp, hde⟩, fun _ => trivial⟩
      · simp only [mongoDeleteUser, hfind]
        constructor
        · intro h; exact absurd h (by simp)
        · intro hnot; exact absurd ⟨d, by rw [hdocs]; simp, hde⟩ hnot
      · intro hle _
        have hprene : ∀ y ∈ pre, ¬ dget "email" y = some (Value.str e) :=
          fun y hy => of_decide_eq_false (hpre y hy)
        have hdel : mongoDeleteOne e st.docs = pre ++ post := by
          rw [hdocs]
          exact mongoDeleteOne_append e pre post d hprene hde
        have hcpre : List.countP
            (fun x => decide (dget "email" x = some (Value.str e))) pre = 0 :=
          List.countP_eq_zero.mpr (fun a ha => by simp [hpre a ha])
        have hcount : mongoCountEmail st.docs e =
            1 + List.countP (fun x => decide (dget "email" x = some (Value.str e))) post := by
          show List.countP _ _ = _
          rw [hdocs, List.countP_append, List.countP_cons, hcpre, hpd]
          simp [Nat.add_comm]
        have hcpost : List.countP
            (fun x => decide (dget "email" x = some (Value.str e))) post = 0 := by
          omega
        have hfindpp : mongoFindByEmail (pre ++ post) e = none := by
          show List.find? _ _ = none
          refine List.find?_eq_none.mpr ?_
          intro x hx
          rcases List.mem_append.mp hx with hx | hx
          · simp [hpre x hx]
          · simp [List.countP_eq_zero.mp hcpost x hx]
        simp [mongoDeleteUser, hfind, hdel, mongoGetUserByEmail, hfindpp]
  · intro st e
    cases hfind : sqlFindByEmail st.rows e with
    | none =>
      have hfind' : List.find? (fun x => decide (x.email = e)) st.rows = none := hfind
      have hnotex : ¬ ∃ r ∈ st.rows, r.email = e := by
        rintro ⟨r, hr, hre⟩
        exact List.find?_eq_none.mp hfind' r hr (decide_eq_true hre)
      refine ⟨⟨false, by simp [sqlDeleteUser, hfind]⟩, ?_, ?_, ?_⟩
      · simp only [sqlDeleteUser, hfind]
        exact ⟨fun h => absurd h (by simp), fun hex => absurd hex hnotex⟩
      · simp only [sqlDeleteUser, hfind]
        exact ⟨fun _ => hnotex, fun _ => trivial⟩
      · intro _ htrue
        rw [sqlDeleteUser] at htrue
        simp [hfind] at htrue
    | some r =>
      have hfind' : List.find? (fun x => decide (x.email = e)) st.rows = some r := hfind
      obtain ⟨pre, post, hrows, hpre, hpr⟩ := find?_decomp hfind'
      have hre : r.email = e := of_decide_eq_true hpr
      refine ⟨⟨true, by simp [sqlDeleteUser, hfind]⟩, ?_, ?_, ?_⟩
      · simp only [sqlDeleteUser, hfind]
        exact ⟨fun _ => ⟨r, by rw [hrows]; simp, hre⟩, fun _ => trivial⟩
      · simp only [sqlDeleteUser, hfind]
        constructor
        · intro h; exact absurd h (by simp)
        · intro hnot; exact absurd ⟨r, by rw [hrows]; simp, hre⟩ hnot
      · intro hle _
        have hprene : ∀ y ∈ pre, ¬ y.email = e :=
          fun y hy => of_decide_eq_false (hpre y hy)
        have hdel : sqlDeleteRow e st.rows = pre ++ post := by
          rw [hrows]
          exact sqlDeleteRow_append e pre post r hprene hre
        have hcpre : List.countP (fun x => decide (x.email = e)) pre = 0 :=
          List.countP_eq_zero.mpr (fun a ha => by simp [hpre a ha])
        have hcount : sqlCountEmail st.rows e =
            1 + List.countP (fun x => decide (x.email = e)) post := by
          show List.countP _ _ = _
          rw [hrows, List.countP_append, List.countP_cons, hcpre, hpr]
          simp [Nat.add_comm]
        have hcpost : List.countP (fun x => decide (x.email = e)) post = 0 := by
          omega
        have hfindpp : sqlFindByEmail (pre ++ post) e = none := by
          show List.find? _ _ = none
          refine List.find?_eq_none.mpr ?_
          intro x hx
          rcases List.mem_append.mp hx with hx | hx
          · simp [hpre x hx]
          · simp [List.countP_eq_zero.mp hcpost x hx]
        simp [sqlDeleteUser, hfind, hdel, sqlGetUserByEmail, hfindpp]

/-- Witness for C4 at a concrete one-user store: deleting the stored email
returns `true` and the record is gone; deleting it again returns `false`. -/
theorem C4_witness :
    (mongoDeleteUser ⟨[[("_id", .oid 0), ("email", .str "a@x.com")]], 1⟩ "a@x.com").1
      = .ok true ∧
    mongoGetUserByEmail
      (mongoDeleteUser ⟨[[("_id", .oid 0), ("email", .str "a@x.com")]], 1⟩ "a@x.com").2
      "a@x.com" = none ∧
    (mongoDeleteUser ⟨[], 1⟩ "a@x.com").1 = .ok false ∧
    (sqlDeleteUser ⟨[⟨1, "A", "a@x.com", none⟩], 2⟩ "a@x.com").1 = .ok true ∧
    sqlGetUserByEmail (sqlDeleteUser ⟨[⟨1, "A", "a@x.com", none⟩], 2⟩ "a@x.com").2
      "a@x.com" = none ∧
    (sqlDeleteUser ⟨[], 2⟩ "a@x.com").1 = .ok false := by
  refine ⟨?_, ?_, ?_, ?_, ?_, ?_⟩
  · exact (C4_delete.1 ⟨[[("_id", .oid 0), ("email", .str "a@x.com")]], 1⟩
      "a@x.com").2.1.mpr ⟨[("_id", Value.oid 0), ("email", Value.str "a@x.com")], by simp, by decide⟩
  · exact (C4_delete.1 ⟨[[("_id", .oid 0), ("email", .str "a@x.com")]], 1⟩
      "a@x.com").2.2.2 (by decide) rfl
  · exact (C4_delete.1 ⟨[], 1⟩ "a@x.com").2.2.1.mpr (by simp)
  · exact (C4_delete.2 ⟨[⟨1, "A", "a@x.com", none⟩], 2⟩ "a@x.com").2.1.mpr
      ⟨⟨1, "A", "a@x.com", none⟩, by simp, rfl⟩
  · exact (C4_delete.2 ⟨[⟨1, "A", "a@x.com", none⟩], 2⟩ "a@x.com").2.2.2
      (by decide) rfl
  · exact (C4_delete.2 ⟨[], 2⟩ "a@x.com").2.2.1.mpr (by simp)

/-- C2 (amended): for a state containing a user with email `e` and a partial
update payload that does not collide on a changed email, `update_user`
changes only the fields present in the payload — the id and every absent
field keep their prior values, the returned value is the post-update
canonical record, and only the matched record changes in the store — on the
document-store adapter for every non-empty payload, and on the relational
adapter for every payload including the empty one. On the document-store
adapter the empty payload instead makes the underlying `update_one` raise an
empty-`$set` error, leaving the store unchanged and returning no record. -/
theorem C2_update_frame :
    (∀ (st : MongoState) (e : String) (u : UserUpdate) (d : List (String × Value)),
      mongoFindByEmail st.docs e = some d →
      (∀ ne, u.email = some ne → ¬ ne = e → mongoFindByEmail st.docs ne = none) →
      ¬ u.toDict = [] →
      ∃ rec,
        (mongoUpdateUser st e u).1 = .ok (some rec) ∧
        rec = convertMongoUserToDict (applySet u.toDict d) ∧
        dget "id" rec = dget "id" (convertMongoUserToDict d) ∧
        (u.name = none → dget "name" rec = dget "name" (convertMongoUserToDict d)) ∧
        (∀ n, u.name = some n → dget "name" rec = some (.str n)) ∧
        (u.email = none → dget "email" rec = dget "email" (convertMongoUserToDict d)) ∧
        (∀ ne, u.email = some ne → dget "email" rec = some (.str ne)) ∧
        (u.age = none → dget "age" rec = dget "age" (convertMongoUserToDict d)) ∧
        (∀ a, u.age = some a → dget "age" rec = some (ageValue a)) ∧
        ∃ pre post, st.docs = pre ++ d :: post ∧
          (mongoUpdateUser st e u).2.docs = pre ++ applySet u.toDict d :: post ∧
          (mongoUpdateUser st e u).2.nextId = st.nextId) ∧
    (∀ (st : MongoState) (e : String) (u : UserUpdate) (d : List (String × Value)),
      mongoFindByEmail st.docs e = some d →
      u.toDict = [] →
      mongoUpdateUser st e u = (.error .exc, st)) ∧
    (∀ (st : SqlState) (e : String) (u : UserUpdate) (r : SqlUser),
      sqlFindByEmail st.rows e = some r →
      (∀ ne, u.email = some ne → ¬ ne = e → sqlFindByEmail st.rows ne = none) →
      ∃ rec,
        (sqlUpdateUser st e u).1 = .ok (some rec) ∧
        rec = convertSqlUserToDict (sqlApplyUpdate u r) ∧
        dget "id" rec = some (.str (toString r.id)) ∧
        (u.name = none → dget "name" rec = some (.str r.name)) ∧
        (∀ n, u.name = some n → dget "name" rec = some (.str n)) ∧
        (u.email = none → dget "email" rec = some (.str r.email)) ∧
        (∀ ne, u.email = some ne → dget "email" rec = some (.str ne)) ∧
        (u.age = none → dget "age" rec = some (ageValue r.age)) ∧
        (∀ a, u.age = some a → dget "age" rec = some (ageValue a)) ∧
        ∃ pre post, st.rows = pre ++ r :: post ∧
          (sqlUpdateUser st e u).2.rows = pre ++ sqlApplyUpdate u r :: post ∧
          (sqlUpdateUser st e u).2.nextId = st.nextId) := by
  refine ⟨?_, ?_, ?_⟩
  · intro st e u d hfind hno hne0
    have hfind' : List.find?
        (fun x => decide (dget "email" x = some (Value.str e))) st.docs = some d := hfind
    obtain ⟨pre, post, hdocs, hpre, hpd⟩ := find?_decomp hfind'
    have hde : dget "email" d = some (.str e) := of_decide_eq_true hpd
    have hprene : ∀ y ∈ pre, ¬ dget "email" y = some (Value.str e) :=
      fun y hy => of_decide_eq_false (hpre y hy)
    have hdup : mongoUpdateDupCheck st.docs e u = false := by
      rw [mongoUpdateDupCheck]
      cases hue : u.email with
      | none => rfl
      | some ne =>
        by_cases hne : ne = e
        · simp [hne]
        · simp [hno ne hue hne]
    have hupd : mongoUpdateOne e u.toDict st.docs =
        pre ++ applySet u.toDict d :: post := by
      rw [hdocs]
      exact mongoUpdateOne_append e u.toDict pre post d hprene hde
    have hcall : mongoUpdateOneCall e u.toDict st.docs =
        .ok (mongoUpdateOne e u.toDict st.docs) := by
      rw [mongoUpdateOneCall, if_neg hne0]
    obtain ⟨hname, hemail, hage, hother⟩ := applySet_fields u d
    have hd'e : dget "email" (applySet u.toDict d) =
        some (Value.str (u.email.getD e)) := by
      cases hue : u.email with
      | none => simp [hemail, hue, hde]
      | some ne => simp [hemail, hue]
    have hpre2 : ∀ y ∈ pre,
        (fun x => decide (dget "email" x = some (Value.str (u.email.getD e)))) y
          = false := by
      cases hue : u.email with
      | none =>
        intro y hy
        simp [hprene y hy]
      | some ne =>
        intro y hy
        by_cases hne : ne = e
        · subst hne
          simp [hprene y hy]
        · have hn' : List.find?
              (fun x => decide (dget "email" x = some (Value.str ne))) st.docs
              = none := hno ne hue hne
          have hy' : y ∈ st.docs := by
            rw [hdocs]; exact List.mem_append.mpr (Or.inl hy)
          have hx := List.find?_eq_none.mp hn' y hy'
          simpa using hx
    have hrefetch : mongoFindByEmail (pre ++ applySet u.toDict d :: post)
        (u.email.getD e) = some (applySet u.toDict d) := by
      show List.find? _ _ = _
      rw [find?_append_left_none hpre2]
      exact List.find?_cons_of_pos _ (decide_eq_true hd'e)
    refine ⟨convertMongoUserToDict (applySet u.toDict d), ?_, rfl, ?_, ?_, ?_, ?_,
      ?_, ?_, ?_, pre, post, hdocs, ?_, ?_⟩
    · simp [mongoUpdateUser, hfind, hdup, hcall, hupd, hrefetch, convertMongoUser]
    · rw [dget_convert_id, dget_convert_id,
        hother "_id" (by decide) (by decide) (by decide)]
    · intro hn; rw [dget_convert_name, dget_convert_name]; simp [hname, hn]
    · intro n hn; rw [dget_convert_name]; simp [hname, hn]
    · intro hn; rw [dget_convert_email, dget_convert_email]; simp [hemail, hn]
    · intro ne hn; rw [dget_convert_email]; simp [hemail, hn]
    · intro hn; rw [dget_convert_age, dget_convert_age]; simp [hage, hn]
    · intro a hn; rw [dget_convert_age]; simp [hage, hn]
    · simp [mongoUpdateUser, hfind, hdup, hcall, hupd]
    · simp [mongoUpdateUser, hfind, hdup, hcall]
  · intro st e u d hfind hempt
    have hdup : mongoUpdateDupCheck st.docs e u = false := by
      rw [mongoUpdateDupCheck]
      cases hue : u.email with
      | none => rfl
      | some ne => simp [UserUpdate.toDict, hue] at hempt
    have hcall : mongoUpdateOneCall e u.toDict st.docs = .error .exc := by
      rw [mongoUpdateOneCall, if_pos hempt]
    simp [mongoUpdateUser, hfind, hdup, hcall]
  · intro st e u r hfind hno
    have hfind' : List.find? (fun x => decide (x.email = e)) st.rows = some r := hfind
    obtain ⟨pre, post, hrows, hpre, hpr⟩ := find?_decomp hfind'
    have hre : r.email = e := of_decide_eq_true hpr
    have hprene : ∀ y ∈ pre, ¬ y.email = e :=
      fun y hy => of_decide_eq_false (hpre y hy)
    have hdup : sqlUpdateDupCheck st.rows e u = false := by
      rw [sqlUpdateDupCheck]
      cases hue : u.email with
      | none => rfl
      | some ne =>
        by_cases hne : ne = e
        · simp [hne]
        · simp [hno ne hue hne]
    have hupd : sqlUpdateRow e u st.rows = pre ++ sqlApplyUpdate u r :: post := by
      rw [hrows]
      exact sqlUpdateRow_append e u pre post r hprene hre
    refine ⟨convertSqlUserToDict (sqlApplyUpdate u r), ?_, rfl, ?_, ?_, ?_, ?_,
      ?_, ?_, ?_, pre, post, hrows, ?_, ?_⟩
    · simp [sqlUpdateUser, hfind, hdup]
    · simp [convertSqlUserToDict, dget, sqlApplyUpdate]
    · intro hn; simp [convertSqlUserToDict, dget, sqlApplyUpdate, hn]
    · intro n hn; simp [convertSqlUserToDict, dget, sqlApplyUpdate, hn]
    · intro hn; simp [convertSqlUserToDict, dget, sqlApplyUpdate, hn]
    · intro ne hn; simp [convertSqlUserToDict, dget, sqlApplyUpdate, hn]
    · intro hn; simp [convertSqlUserToDict, dget, sqlApplyUpdate, hn]
    · intro a hn; simp [convertSqlUserToDict, dget, sqlApplyUpdate, hn]
    · simp [sqlUpdateUser, hfind, hdup, hupd]
    · simp [sqlUpdateUser, hfind, hdup]

/-- Counterexample to C2 as stated: with one stored user and the empty
update payload (which the claim explicitly includes), the document-store
adapter's `update_user` raises an unexpected error — MongoDB rejects the
empty `$set` document — instead of returning the post-update canonical
record. -/
theorem C2_counterexample :
    mongoFindByEmail [[("_id", Value.oid 0), ("name", Value.str "Bob"),
        ("email", Value.str "b@x.com")]] "b@x.com" =
      some [("_id", Value.oid 0), ("name", Value.str "Bob"),
            ("email", Value.str "b@x.com")] ∧
    (⟨none, none, none⟩ : UserUpdate).toDict = [] ∧
    (mongoUpdateUser ⟨[[("_id", Value.oid 0), ("name", Value.str "Bob"),
        ("email", Value.str "b@x.com")]], 1⟩ "b@x.com" ⟨none, none, none⟩).1 =
      .error .exc ∧
    ¬ ∃ rec, (mongoUpdateUser ⟨[[("_id", Value.oid 0), ("name", Value.str "Bob"),
        ("email", Value.str "b@x.com")]], 1⟩ "b@x.com" ⟨none, none, none⟩).1 =
      Except.ok (some rec) := by
  refine ⟨by decide, rfl, rfl, ?_⟩
  rintro ⟨rec, h⟩
  rw [show (mongoUpdateUser ⟨[[("_id", Value.oid 0), ("name", Value.str "Bob"),
      ("email", Value.str "b@x.com")]], 1⟩ "b@x.com" ⟨none, none, none⟩).1 =
      Except.error PyErr.exc from rfl] at h
  exact Except.noConfusion h

/-- Witness for C2 (amended) at a concrete one-user store: updating with the
non-empty partial payload `{age: 31}` returns the record with only `age`
changed, `name` and `email` unchanged, in both adapters; the empty payload
on the document-store adapter raises and leaves the store unchanged. -/
theorem C2_witness :
    (mongoUpdateUser ⟨[[("_id", Value.oid 0), ("name", Value.str "Bob"),
        ("email", Value.str "b@x.com"), ("age", Value.int 25)]], 1⟩
      "b@x.com" ⟨none, none, some (some 31)⟩).1 =
      .ok (some [("id", .str "0"), ("name", .str "Bob"),
                 ("email", .str "b@x.com"), ("age", .int 31)]) ∧
    mongoUpdateUser ⟨[[("_id", Value.oid 0), ("name", Value.str "Bob"),
        ("email", Value.str "b@x.com"), ("age", Value.int 25)]], 1⟩
      "b@x.com" ⟨none, none, none⟩ =
      (.error .exc,
       ⟨[[("_id", Value.oid 0), ("name", Value.str "Bob"),
          ("email", Value.str "b@x.com"), ("age", Value.int 25)]], 1⟩) ∧
    (sqlUpdateUser ⟨[⟨1, "Bob", "b@x.com", some 25⟩], 2⟩
      "b@x.com" ⟨none, none, some (some 31)⟩).1 =
      .ok (some [("id", .str "1"), ("name", .str "Bob"),
                 ("email", .str "b@x.com"), ("age", .int 31)]) := by
  refine ⟨?_, ?_, ?_⟩
  · obtain ⟨rec, h1, h2, -⟩ := C2_update_frame.1
      ⟨[[("_id", Value.oid 0), ("name", Value.str "Bob"),
         ("email", Value.str "b@x.com"), ("age", Value.int 25)]], 1⟩
      "b@x.com" ⟨none, none, some (some 31)⟩
      [("_id", Value.oid 0), ("name", Value.str "Bob"),
       ("email", Value.str "b@x.com"), ("age", Value.int 25)]
      (by decide) (fun ne h hne => Option.noConfusion h) (by decide)
    rw [h1, h2]
    rfl
  · exact C2_update_frame.2.1
      ⟨[[("_id", Value.oid 0), ("name", Value.str "Bob"),
         ("email", Value.str "b@x.com"), ("age", Value.int 25)]], 1⟩
      "b@x.com" ⟨none, none, none⟩
      [("_id", Value.oid 0), ("name", Value.str "Bob"),
       ("email", Value.str "b@x.com"), ("age", Value.int 25)]
      (by decide) rfl
  · obtain ⟨rec, h1, h2, -⟩ := C2_update_frame.2.2
      ⟨[⟨1, "Bob", "b@x.com", some 25⟩], 2⟩
      "b@x.com" ⟨none, none, some (some 31)⟩ ⟨1, "Bob", "b@x.com", some 25⟩
      rfl (fun ne h hne => Option.noConfusion h)
    rw [h1, h2]
    rfl

end DbAdapter
